import Mathlib

/-!
Verification of the maimai chat-bot core: the packet protocol's polymorphic
payload model (handlers.go / packets file), the handler loop bodies, and the
presence-debounce state machine.

Conventions of the shallow embedding:
* Strings are assumed ASCII, so Go's byte indexing and slicing coincide with
  character indexing (`goIndex`, `goSlice`).
* A packet's `data` field is modelled as an already-parsed JSON tree `Json`;
  `json.Unmarshal` into each payload struct is embedded as a fold over the
  object's fields that keeps the first type error while continuing to decode
  (the behaviour of encoding/json for `UnmarshalTypeError`), leaving the
  struct's zero values for absent fields.  A JSON `null` body is modelled as a
  zero-value decode.
* Go run-time panics (out-of-range index, nil-pointer dereference) are
  explicit: fallible string operations return `Except`, handler iterations
  return a `StepOutcome` with a `panicked` constructor.
* The `Room` type lives in room.go, which is not part of the sources here;
  its operations are modelled from the spec where so marked.
-/

/-- A parsed JSON document (a packet's `data` field after parsing). -/
inductive Json where
  | null
  | bool (b : Bool)
  | num  (n : Int)
  | str  (s : String)
  | arr  (elems : List Json)
  | obj  (fields : List (String × Json))
deriving Repr

/-- `User` from the packets file: id / name / server_id / server_era. -/
structure User where
  ID : String := ""
  Name : String := ""
  ServerID : String := ""
  ServerEra : String := ""
deriving Repr, DecidableEq

/-- `Message`: a unit of data associated with a text message. -/
structure Message where
  ID : String := ""
  Parent : String := ""
  PreviousEditID : String := ""
  Time : Int := 0
  Sender : User := {}
  Content : String := ""
  EncryptionKeyID : String := ""
  Edited : Int := 0
  Deleted : Int := 0
deriving Repr, DecidableEq

/-- `PingEvent`: the server's information on this ping and the next. -/
structure PingEvent where
  Time : Int := 0
  Next : Int := 0
deriving Repr, DecidableEq

/-- `PingReply`. -/
structure PingReply where
  UnixTime : Int := 0
deriving Repr, DecidableEq

/-- `SendCommand`. -/
structure SendCommand where
  Content : String := ""
  Parent : String := ""
deriving Repr, DecidableEq

/-- `NickEvent` (= `NickReply` in the source). -/
structure NickEvent where
  SessionID : String := ""
  ID : String := ""
  From : String := ""
  To : String := ""
deriving Repr, DecidableEq

/-- `AuthCommand`. -/
structure AuthCommand where
  Type' : String := ""
  Passcode : String := ""
deriving Repr

/-- `PresenceEvent` embeds `*User`; the pointer is `none` until a promoted
user field is decoded, mirroring the nil pointer of the Go struct. -/
structure PresenceEvent where
  User : Option User := none
  SessionID : String := ""
deriving Repr, DecidableEq

/-- `BounceEvent`. -/
structure BounceEvent where
  Reason : String := ""
  AuthOptions : List String := []
  AgentID : String := ""
  IP : String := ""
deriving Repr, DecidableEq

/-- `PacketEvent`: the wire envelope. `Data` is the raw payload, `Error` an
optional server-side error string. -/
structure PacketEvent where
  ID : String := ""
  Type' : String := ""
  Data : Json := Json.null
  Error : String := ""
deriving Repr

-- Named constants for the packet types, verbatim from the source.

def PingReplyType : String := "ping-reply"
def PingEventType : String := "ping-event"
def SendType : String := "send"
def SendEventType : String := "send-event"
def SendReplyType : String := "send-reply"
def NickType : String := "nick"
def NickReplyType : String := "nick-reply"
def NickEventType : String := "nick-event"
def JoinEventType : String := "join-event"
def PartEventType : String := "part-event"
def AuthType : String := "auth"
def BounceEventType : String := "bounce-event"

/-- The type tags `Payload` actually dispatches on (the cases of its switch).
Note that `nick-reply` is *not* among them. -/
def registeredTypes : List String :=
  [PingEventType, SendEventType, SendReplyType, SendType, NickEventType,
   JoinEventType, PartEventType, PingReplyType, AuthType, BounceEventType]

-- ## json.Unmarshal, embedded per payload struct

/-- Decode a JSON value into a string field: a wrong kind is a type error that
leaves the current value in place; `null` is a no-op. -/
def setStr (cur : String) : Json → String × Option String
  | .str s => (s, none)
  | .null => (cur, none)
  | _ => (cur, some "json: cannot unmarshal value into field of type string")

/-- Decode a JSON value into an int64 field. -/
def setInt (cur : Int) : Json → Int × Option String
  | .num n => (n, none)
  | .null => (cur, none)
  | _ => (cur, some "json: cannot unmarshal value into field of type int64")

/-- Decode a JSON value into a []string field. -/
def setStrList (cur : List String) : Json → List String × Option String
  | .arr xs =>
    match xs.mapM (fun j => match j with | Json.str s => some s | _ => none) with
    | some ss => (ss, none)
    | none => (cur, some "json: cannot unmarshal value into field of type []string")
  | .null => (cur, none)
  | _ => (cur, some "json: cannot unmarshal value into field of type []string")

/-- Fold a struct-specific field setter over an object's fields, keeping the
first type error while continuing to decode the remaining fields. -/
def decodeFields (setField : α → String → Json → α × Option String) :
    List (String × Json) → α → Option String → α × Option String
  | [], a, e => (a, e)
  | (k, v) :: rest, a, e =>
    let (a2, e2) := setField a k v
    decodeFields setField rest a2 (e <|> e2)

/-- Decode a JSON value into a struct starting from its zero value: a
non-object, non-null document is a type error yielding the zero value. -/
def decodeWith (setField : α → String → Json → α × Option String) (zero : α) :
    Json → α × Option String
  | .obj fs => decodeFields setField fs zero none
  | .null => (zero, none)
  | _ => (zero, some "json: cannot unmarshal value into struct")

def User.setField (u : User) (k : String) (v : Json) : User × Option String :=
  if k = "id" then let (s, e) := setStr u.ID v; ({ u with ID := s }, e)
  else if k = "name" then let (s, e) := setStr u.Name v; ({ u with Name := s }, e)
  else if k = "server_id" then let (s, e) := setStr u.ServerID v; ({ u with ServerID := s }, e)
  else if k = "server_era" then let (s, e) := setStr u.ServerEra v; ({ u with ServerEra := s }, e)
  else (u, none)

/-- Decode into an existing `User` (used for the nested `sender` field). -/
def decodeUserInto (cur : User) : Json → User × Option String
  | .obj fs => decodeFields User.setField fs cur none
  | .null => (cur, none)
  | _ => (cur, some "json: cannot unmarshal value into struct User")

def Message.setField (m : Message) (k : String) (v : Json) : Message × Option String :=
  if k = "id" then let (s, e) := setStr m.ID v; ({ m with ID := s }, e)
  else if k = "parent" then let (s, e) := setStr m.Parent v; ({ m with Parent := s }, e)
  else if k = "previous_edit_id" then
    let (s, e) := setStr m.PreviousEditID v; ({ m with PreviousEditID := s }, e)
  else if k = "time" then let (n, e) := setInt m.Time v; ({ m with Time := n }, e)
  else if k = "sender" then let (u, e) := decodeUserInto m.Sender v; ({ m with Sender := u }, e)
  else if k = "content" then let (s, e) := setStr m.Content v; ({ m with Content := s }, e)
  else if k = "encryption_key_id" then
    let (s, e) := setStr m.EncryptionKeyID v; ({ m with EncryptionKeyID := s }, e)
  else if k = "edited" then let (n, e) := setInt m.Edited v; ({ m with Edited := n }, e)
  else if k = "deleted" then let (n, e) := setInt m.Deleted v; ({ m with Deleted := n }, e)
  else (m, none)

def decodeMessage : Json → Message × Option String := decodeWith Message.setField {}

def PingEvent.setField (p : PingEvent) (k : String) (v : Json) : PingEvent × Option String :=
  if k = "time" then let (n, e) := setInt p.Time v; ({ p with Time := n }, e)
  else if k = "next" then let (n, e) := setInt p.Next v; ({ p with Next := n }, e)
  else (p, none)

def decodePingEvent : Json → PingEvent × Option String := decodeWith PingEvent.setField {}

def PingReply.setField (p : PingReply) (k : String) (v : Json) : PingReply × Option String :=
  if k = "time" then let (n, e) := setInt p.UnixTime v; ({ p with UnixTime := n }, e)
  else (p, none)

def decodePingReply : Json → PingReply × Option String := decodeWith PingReply.setField {}

def SendCommand.setField (c : SendCommand) (k : String) (v : Json) : SendCommand × Option String :=
  if k = "content" then let (s, e) := setStr c.Content v; ({ c with Content := s }, e)
  else if k = "parent" then let (s, e) := setStr c.Parent v; ({ c with Parent := s }, e)
  else (c, none)

def decodeSendCommand : Json → SendCommand × Option String := decodeWith SendCommand.setField {}

def NickEvent.setField (nev : NickEvent) (k : String) (v : Json) : NickEvent × Option String :=
  if k = "session_id" then let (s, e) := setStr nev.SessionID v; ({ nev with SessionID := s }, e)
  else if k = "id" then let (s, e) := setStr nev.ID v; ({ nev with ID := s }, e)
  else if k = "from" then let (s, e) := setStr nev.From v; ({ nev with From := s }, e)
  else if k = "to" then let (s, e) := setStr nev.To v; ({ nev with To := s }, e)
  else (nev, none)

def decodeNickEvent : Json → NickEvent × Option String := decodeWith NickEvent.setField {}

def AuthCommand.setField (c : AuthCommand) (k : String) (v : Json) : AuthCommand × Option String :=
  if k = "type" then let (s, e) := setStr c.Type' v; ({ c with Type' := s }, e)
  else if k = "passcode" then let (s, e) := setStr c.Passcode v; ({ c with Passcode := s }, e)
  else (c, none)

def decodeAuthCommand : Json → AuthCommand × Option String := decodeWith AuthCommand.setField {}

/-- The embedded `*User` of `PresenceEvent` promotes the user fields to the
top level; touching a promoted field allocates the pointer. -/
def PresenceEvent.setField (p : PresenceEvent) (k : String) (v : Json) :
    PresenceEvent × Option String :=
  if k = "id" ∨ k = "name" ∨ k = "server_id" ∨ k = "server_era" then
    let (u, e) := User.setField (p.User.getD {}) k v
    ({ p with User := some u }, e)
  else if k = "session_id" then
    let (s, e) := setStr p.SessionID v; ({ p with SessionID := s }, e)
  else (p, none)

def decodePresenceEvent : Json → PresenceEvent × Option String :=
  decodeWith PresenceEvent.setField {}

def BounceEvent.setField (b : BounceEvent) (k : String) (v : Json) : BounceEvent × Option String :=
  if k = "reason" then let (s, e) := setStr b.Reason v; ({ b with Reason := s }, e)
  else if k = "auth_options" then
    let (ss, e) := setStrList b.AuthOptions v; ({ b with AuthOptions := ss }, e)
  else if k = "agent_id" then let (s, e) := setStr b.AgentID v; ({ b with AgentID := s }, e)
  else if k = "ip" then let (s, e) := setStr b.IP v; ({ b with IP := s }, e)
  else (b, none)

def decodeBounceEvent : Json → BounceEvent × Option String := decodeWith BounceEvent.setField {}

/-- The dynamic value `Payload` returns: one of the registered payload
variants, or the raw data for an unregistered type tag. -/
inductive PayloadVal where
  | pingEvent (e : PingEvent)
  | message (m : Message)
  | sendCommand (c : SendCommand)
  | nickEvent (e : NickEvent)
  | presenceEvent (e : PresenceEvent)
  | pingReply (r : PingReply)
  | authCommand (c : AuthCommand)
  | bounceEvent (e : BounceEvent)
  | raw (d : Json)
deriving Repr

/-- `(*PacketEvent).Payload`: select the payload shape by the type tag and
unmarshal `Data` into it, returning the (possibly partially decoded) value
together with the unmarshal error; an unregistered tag returns the raw data
and the unknown-type error. -/
def PacketEvent.Payload (p : PacketEvent) : PayloadVal × Option String :=
  if p.Type' = PingEventType then
    let (e, err) := decodePingEvent p.Data; (.pingEvent e, err)
  else if p.Type' = SendEventType ∨ p.Type' = SendReplyType then
    let (m, err) := decodeMessage p.Data; (.message m, err)
  else if p.Type' = SendType then
    let (c, err) := decodeSendCommand p.Data; (.sendCommand c, err)
  else if p.Type' = NickEventType then
    let (e, err) := decodeNickEvent p.Data; (.nickEvent e, err)
  else if p.Type' = JoinEventType ∨ p.Type' = PartEventType then
    let (e, err) := decodePresenceEvent p.Data; (.presenceEvent e, err)
  else if p.Type' = PingReplyType then
    let (r, err) := decodePingReply p.Data; (.pingReply r, err)
  else if p.Type' = AuthType then
    let (c, err) := decodeAuthCommand p.Data; (.authCommand c, err)
  else if p.Type' = BounceEventType then
    let (e, err) := decodeBounceEvent p.Data; (.bounceEvent e, err)
  else
    (.raw p.Data, some "Unexpected packet type.")

/-- Result of a typed accessor: the asserted value, a silent nil return (Go's
zero pointer), or a run-time panic. -/
inductive GetResult (α : Type) where
  | ok (a : α)
  | nilReturn
  | panicked (msg : String)
deriving Repr, DecidableEq

/-- `GetMessagePayload`: the `!ok` branch of the source is empty, so a payload
that is not a `*Message` is returned as a nil pointer, silently. -/
def GetMessagePayload (packet : PacketEvent) : GetResult Message :=
  match packet.Payload.1 with
  | .message m => .ok m
  | _ => .nilReturn

/-- `GetNickEventPayload` panics when the payload is not a `*NickEvent`. -/
def GetNickEventPayload (packet : PacketEvent) : GetResult NickEvent :=
  match packet.Payload.1 with
  | .nickEvent e => .ok e
  | _ => .panicked "Failed to assert payload as *NickEvent"

/-- `GetPresenceEventPayload` panics when the payload is not a `*PresenceEvent`. -/
def GetPresenceEventPayload (packet : PacketEvent) : GetResult PresenceEvent :=
  match packet.Payload.1 with
  | .presenceEvent e => .ok e
  | _ => .panicked "Failed to assert payload as *PresenceEvent"

-- ## Go string primitives (ASCII assumption: byte = character)

/-- Go string indexing `s[i]`: panics when out of range. -/
def goIndex (s : String) (i : Nat) : Except String Char :=
  if h : i < s.data.length then .ok (s.data.get ⟨i, h⟩)
  else .error "runtime error: index out of range"

/-- Go string slicing `s[a:b]` for in-range bounds. -/
def goSlice (s : String) (a b : Nat) : String :=
  String.mk ((s.data.drop a).take (b - a))

/-- `strings.Split` on a one-character separator: the pieces between each
occurrence (n separators yield n+1 pieces; the empty string yields [""]). -/
def splitChar (c : Char) : List Char → List (List Char)
  | [] => [[]]
  | x :: xs =>
    if x = c then [] :: splitChar c xs
    else
      match splitChar c xs with
      | [] => [[x]]
      | h :: t => (x :: h) :: t

/-- `strings.Split(s, sep)` for a one-character separator. -/
def goSplit (s : String) (sep : Char) : List String :=
  (splitChar sep s.data).map String.mk

/-- Go list/slice indexing `xs[i]`: panics when out of range. -/
def goListGet (xs : List α) (i : Nat) : Except String α :=
  match xs.get? i with
  | some a => .ok a
  | none => .error "runtime error: index out of range"

/-- Go string slicing `s[i:]`: panics when `i` exceeds the length. -/
def goSliceFrom (s : String) (i : Nat) : Except String String :=
  if i ≤ s.data.length then .ok (String.mk (s.data.drop i))
  else .error "runtime error: slice bounds out of range"

/-- `isValidPingCommand`: content at least five bytes long beginning `!ping`. -/
def isValidPingCommand (payload : Message) : Bool :=
  if 5 ≤ payload.Content.data.length ∧ goSlice payload.Content 0 5 = "!ping" then true
  else false

/-- `isValidSeenCommand`, with the source's unguarded access to byte 6: the
`&&` chain short-circuits, so the index is only reached when the content is at
least five bytes long and begins `!seen` — but nothing establishes that byte 6
exists, and `Content[6]` panics on contents of length 5 or 6. -/
def isValidSeenCommand (payload : Message) : Except String Bool :=
  if 5 ≤ payload.Content.data.length ∧ goSlice payload.Content 0 5 = "!seen" then
    match goIndex payload.Content 6 with
    | .error e => .error e
    | .ok c =>
      .ok (decide (String.singleton c = "@" ∧ (goSplit payload.Content ' ').length = 2))
  else .ok false

-- ## The Room and its collaborators

/-- `MsgLogEvent`: the record stored by the message-log handler. -/
structure MsgLogEvent where
  Parent : String := ""
  UserID : String := ""
  UserName : String := ""
  Time : Int := 0
  Content : String := ""
deriving Repr, DecidableEq

/-- `prepareMsgLogEvent`: project a message into its log record, keyed by the
message id. -/
def prepareMsgLogEvent (msg : Message) : String × MsgLogEvent :=
  (msg.ID,
   { Parent := msg.Parent, UserID := msg.Sender.ID, UserName := msg.Sender.Name,
     Time := msg.Time, Content := msg.Content })

/-- Modelled from the spec: the observable state of the `Room` (room.go is not
among the sources).  Per spec §3 the Room owns the leaving-set, the outgoing
send capability, an error-reporting channel, the seen/message-log stores, the
uptime origin, and a logger; sends, pings, reported errors, stored records and
log lines are recorded as ordered lists. -/
structure RoomState where
  leaving : List String := []
  sent : List (String × String) := []
  pings : List Int := []
  errors : List String := []
  msgLog : List (String × MsgLogEvent) := []
  seen : List (String × Int) := []
  logs : List String := []
  uptime : Int := 0
deriving Repr, DecidableEq

/-- Modelled from the spec: `Room.SendText` (room.go) broadcasts a text with a
parent id; recorded as an outgoing (content, parent) pair. -/
def RoomState.SendText (st : RoomState) (text parent : String) : RoomState :=
  { st with sent := st.sent ++ [(text, parent)] }

/-- Modelled from the spec: `Room.sendPing` (room.go) sends a ping-reply
carrying the given time. -/
def RoomState.sendPing (st : RoomState) (t : Int) : RoomState :=
  { st with pings := st.pings ++ [t] }

/-- Modelled from the spec: sending on `Room.errChan` (room.go). -/
def RoomState.reportError (st : RoomState) (e : String) : RoomState :=
  { st with errors := st.errors ++ [e] }

/-- Modelled from the spec: `Room.isUserLeaving` (room.go) — membership in the
leaving-set (spec §3: username → present/absent). -/
def RoomState.isUserLeaving (st : RoomState) (user : String) : Bool :=
  decide (user ∈ st.leaving)

/-- Modelled from the spec: `Room.setUserLeaving` (room.go) — insert into the
leaving-set. -/
def RoomState.setUserLeaving (st : RoomState) (user : String) : RoomState :=
  { st with leaving := if user ∈ st.leaving then st.leaving else user :: st.leaving }

/-- Modelled from the spec: `Room.clearUserLeaving` (room.go) — remove from
the leaving-set. -/
def RoomState.clearUserLeaving (st : RoomState) (user : String) : RoomState :=
  { st with leaving := st.leaving.filter (fun v => decide (v ≠ user)) }

/-- Oracles for the effects the handlers consume: the wall clock, injected
store errors, the seen-store lookup, and the title-fetch / URL-matching
collaborators of spec §6 (net/http and the regexp engine are external I/O and
library code, abstracted as functions). -/
structure Env where
  now : Int := 0
  seenStoreErr : Option String := none
  msgLogStoreErr : Option String := none
  retrieveSeenResult : String → Except String (Option Int) := fun _ => Except.ok none
  fetchTitle : String → Except String String := fun _ => Except.error "no network"
  findURLs : String → List String := fun _ => []
  formatDuration : Int → String := fun _ => ""

/-- Modelled from the spec: `Room.storeSeen` (room.go); spec §6:
`store(username, unixTimestamp) -> error`.  An injected store error is
returned without recording; success appends the record. -/
def storeSeen (env : Env) (st : RoomState) (user : String) (t : Int) :
    RoomState × Option String :=
  match env.seenStoreErr with
  | some e => (st, some e)
  | none => ({ st with seen := st.seen ++ [(user, t)] }, none)

/-- Modelled from the spec: `Room.retrieveSeen` (room.go); spec §6: absence is
a valid result distinct from an error. -/
def retrieveSeen (env : Env) (user : String) : Except String (Option Int) :=
  env.retrieveSeenResult user

/-- Modelled from the spec: `Room.storeMsgLogEvent` (room.go); spec §6: the
message-log store returns an error, "fire-and-forget from the handler's
perspective but must surface store errors to the error-reporting channel" —
so the Room method itself forwards a store error to the error channel. -/
def storeMsgLogEvent (env : Env) (st : RoomState) (msgID : String) (ev : MsgLogEvent) :
    RoomState :=
  match env.msgLogStoreErr with
  | some e => st.reportError e
  | none => { st with msgLog := st.msgLog ++ [(msgID, ev)] }

-- ## Handler loop bodies

/-- One arrival of a handler's two-way `select`: either a fanned-out packet or
a command on the shared command channel. -/
inductive HandlerInput where
  | pkt (p : PacketEvent)
  | cmd (c : String)

/-- Whether the handler's loop keeps running after the iteration. -/
inductive LoopControl where
  | proceed
  | terminated
deriving Repr, DecidableEq

/-- Outcome of one handler loop iteration: the updated room and whether the
loop continues, or a run-time panic. -/
inductive StepOutcome where
  | ok (st : RoomState) (ctl : LoopControl)
  | panicked (msg : String)
deriving Repr, DecidableEq

/-- The Go message a nil-pointer dereference panics with. -/
def nilDeref : String := "runtime error: invalid memory address or nil pointer dereference"

/-- `PingEventHandler`: reply to a ping-event with a ping-reply; a decode
error (or a failed payload assertion) is reported and terminates the loop. -/
def PingEventHandlerStep (_env : Env) (st : RoomState) : HandlerInput → StepOutcome
  | .pkt packet =>
    if packet.Type' = PingEventType then
      match packet.Payload with
      | (_, some err) => .ok (st.reportError err) .terminated
      | (v, none) =>
        match v with
        | .pingEvent data => .ok (st.sendPing data.Time) .proceed
        | _ => .ok (st.reportError "Could not assert payload as *PingEvent.") .terminated
    else .ok st .proceed
  | .cmd c => if c = "kill" then .ok st .terminated else .ok st .proceed

/-- `PingCommandHandler`: on a send-event carrying a `!ping` command, reply
"pong!". -/
def PingCommandHandlerStep (_env : Env) (st : RoomState) : HandlerInput → StepOutcome
  | .pkt packet =>
    if packet.Type' = SendEventType then
      match GetMessagePayload packet with
      | .ok data =>
        if isValidPingCommand data then .ok (st.SendText "pong!" data.ID) .proceed
        else .ok st .proceed
      | .nilReturn => .panicked nilDeref
      | .panicked m => .panicked m
    else .ok st .proceed
  | .cmd c => if c = "kill" then .ok st .terminated else .ok st .proceed

/-- `SeenRecordHandler`: record that the sender of a send-event was seen now;
a store error is reported and terminates the loop. -/
def SeenRecordHandlerStep (env : Env) (st : RoomState) : HandlerInput → StepOutcome
  | .pkt packet =>
    if packet.Type' = SendEventType then
      match GetMessagePayload packet with
      | .ok data =>
        let user := data.Sender.Name.replace " " ""
        match storeSeen env st user env.now with
        | (st2, some e) => .ok (st2.reportError e) .terminated
        | (st2, none) => .ok st2 .proceed
      | .nilReturn => .panicked nilDeref
      | .panicked m => .panicked m
    else .ok st .proceed
  | .cmd c => if c = "kill" then .ok st .terminated else .ok st .proceed

/-- `SeenCommandHandler`: answer a `!seen @user` query.  Mirrors the source's
unguarded `splits[1]` and `splits[1][1:]` accesses as potential panics. -/
def SeenCommandHandlerStep (env : Env) (st : RoomState) : HandlerInput → StepOutcome
  | .pkt packet =>
    if packet.Type' = SendEventType then
      match GetMessagePayload packet with
      | .ok data =>
        match isValidSeenCommand data with
        | .error e => .panicked e
        | .ok false => .ok st .proceed
        | .ok true =>
          let trimmed := data.Content.trim
          let splits := goSplit trimmed ' '
          match goListGet splits 1 with
          | .error e => .panicked e
          | .ok s1 =>
            match goSliceFrom s1 1 with
            | .error e => .panicked e
            | .ok target =>
              match retrieveSeen env target with
              | .error e => .ok (st.reportError e) .terminated
              | .ok none => .ok (st.SendText "User has not been seen yet." data.ID) .proceed
              | .ok (some lastSeen) =>
                let hours := Int.tdiv (env.now - lastSeen) 3600
                .ok (st.SendText ("Seen " ++ toString hours ++ " hours ago.") data.ID) .proceed
      | .nilReturn => .panicked nilDeref
      | .panicked m => .panicked m
    else .ok st .proceed
  | .cmd c => if c = "kill" then .ok st .terminated else .ok st .proceed

/-- The URL loop of `LinkTitleHandler`: prefix bare URLs with `http://`, fetch
titles, and reply with the first non-empty one. -/
def tryLinks (env : Env) (st : RoomState) (msgID : String) : List String → RoomState
  | [] => st
  | url :: rest =>
    let url2 := if url.startsWith "http" then url else "http://" ++ url
    match env.fetchTitle url2 with
    | .ok title =>
      if title ≠ "" then st.SendText ("Link title: " ++ title) msgID
      else tryLinks env st msgID rest
    | .error _ => tryLinks env st msgID rest

/-- `LinkTitleHandler`: look for URLs in a send-event (the `linkMatcher`
regexp and `getLinkTitle` HTTP fetch are the `Env` oracles). -/
def LinkTitleHandlerStep (env : Env) (st : RoomState) : HandlerInput → StepOutcome
  | .pkt packet =>
    if packet.Type' = SendEventType then
      match GetMessagePayload packet with
      | .ok data => .ok (tryLinks env st data.ID (env.findURLs data.Content)) .proceed
      | .nilReturn => .panicked nilDeref
      | .panicked m => .panicked m
    else .ok st .proceed
  | .cmd c => if c = "kill" then .ok st .terminated else .ok st .proceed

/-- `UptimeCommandHandler`: reply to `!uptime` with the time since start. -/
def UptimeCommandHandlerStep (env : Env) (st : RoomState) : HandlerInput → StepOutcome
  | .pkt packet =>
    if packet.Type' = SendEventType then
      match GetMessagePayload packet with
      | .ok data =>
        if data.Content = "!uptime" then
          .ok (st.SendText ("This bot has been up for "
                ++ env.formatDuration (env.now - st.uptime) ++ ".") data.ID) .proceed
        else .ok st .proceed
      | .nilReturn => .panicked nilDeref
      | .panicked m => .panicked m
    else .ok st .proceed
  | .cmd c => if c = "kill" then .ok st .terminated else .ok st .proceed

/-- `ScritchCommandHandler`: reply to `!scritch` with a canned action. -/
def ScritchCommandHandlerStep (_env : Env) (st : RoomState) : HandlerInput → StepOutcome
  | .pkt packet =>
    if packet.Type' = SendEventType then
      match GetMessagePayload packet with
      | .ok data =>
        if data.Content = "!scritch" then .ok (st.SendText "/me bruxes" data.ID) .proceed
        else .ok st .proceed
      | .nilReturn => .panicked nilDeref
      | .panicked m => .panicked m
    else .ok st .proceed
  | .cmd c => if c = "kill" then .ok st .terminated else .ok st .proceed

/-- `DebugHandler`: log packets carrying a server-side error, and log bounce
events; decode or assertion failures just skip the packet. -/
def DebugHandlerStep (_env : Env) (st : RoomState) : HandlerInput → StepOutcome
  | .pkt packet =>
    let st1 := if packet.Error ≠ "" then
        { st with logs := st.logs ++ ["Packet received containing error: " ++ packet.Error] }
      else st
    if packet.Type' = BounceEventType then
      match packet.Payload with
      | (_, some _) => .ok st1 .proceed
      | (v, none) =>
        match v with
        | .bounceEvent data =>
          .ok { st1 with logs := st1.logs ++
                ["BounceEvent received, reason: " ++ data.Reason ++ " and ID: " ++ packet.ID] }
            .proceed
        | _ => .ok st1 .proceed
    else .ok st1 .proceed
  | .cmd c => if c = "kill" then .ok st .terminated else .ok st .proceed

/-- `NickChangeHandler`: announce a nick change, skipping nick-events whose
`from` or `to` is empty (those are joins or leaves). -/
def NickChangeHandlerStep (_env : Env) (st : RoomState) : HandlerInput → StepOutcome
  | .pkt packet =>
    if packet.Type' = NickEventType then
      match GetNickEventPayload packet with
      | .ok data =>
        if data.From = "" ∨ data.To = "" then .ok st .proceed
        else
          .ok (st.SendText ("< " ++ data.From ++ " is now known as " ++ data.To ++ ". >") "")
            .proceed
      | .nilReturn => .panicked nilDeref
      | .panicked m => .panicked m
    else .ok st .proceed
  | .cmd c => if c = "kill" then .ok st .terminated else .ok st .proceed

/-- The join announcement `fmt.Sprintf("< %s joined the room. >", user)`. -/
def joinMsg (user : String) : String := "< " ++ user ++ " joined the room. >"

/-- The leave announcement `fmt.Sprintf("< %s left the room. >", user)`. -/
def leaveMsg (user : String) : String := "< " ++ user ++ " left the room. >"

/-- `partTimer` sleeps for this many minutes before re-checking
(`time.Duration(5) * time.Minute`). -/
def partTimerDelayMinutes : Nat := 5

/-- The body of `partTimer` after its sleep: re-read the leaving state *now*,
and only a user still marked leaving (and non-empty) is announced and
cleared. -/
def partTimer (st : RoomState) (user : String) : RoomState :=
  if st.isUserLeaving user ∧ user ≠ "" then
    (st.SendText (leaveMsg user) "").clearUserLeaving user
  else st

/-- `PartEventHandler`: mark the parting user as leaving.  The
`go partTimer(room, user)` it spawns is modelled as the separate
`PresenceAct.timer` action, which may interleave later. -/
def PartEventHandlerStep (_env : Env) (st : RoomState) : HandlerInput → StepOutcome
  | .pkt packet =>
    if packet.Type' = PartEventType then
      match GetPresenceEventPayload packet with
      | .ok data =>
        match data.User with
        | none => .panicked nilDeref
        | some usr => .ok (st.setUserLeaving usr.Name) .proceed
      | .nilReturn => .panicked nilDeref
      | .panicked m => .panicked m
    else .ok st .proceed
  | .cmd c => if c = "kill" then .ok st .terminated else .ok st .proceed

/-- `JoinEventHandler`: join-events announce unless the user was marked
leaving, and always clear the mark; an empty user name is skipped.
Nick-events with an empty `from` are treated the same on their `to` name —
note the source has no empty-name guard in this branch. -/
def JoinEventHandlerStep (_env : Env) (st : RoomState) : HandlerInput → StepOutcome
  | .pkt packet =>
    if packet.Type' = JoinEventType ∨ packet.Type' = NickEventType then
      if packet.Type' = JoinEventType then
        match GetPresenceEventPayload packet with
        | .ok data =>
          match data.User with
          | none => .panicked nilDeref
          | some usr =>
            if usr.Name = "" then .ok st .proceed
            else
              let st2 := if st.isUserLeaving usr.Name then st
                else st.SendText (joinMsg usr.Name) ""
              .ok (st2.clearUserLeaving usr.Name) .proceed
        | .nilReturn => .panicked nilDeref
        | .panicked m => .panicked m
      else
        match GetNickEventPayload packet with
        | .ok data =>
          if data.From ≠ "" then .ok st .proceed
          else
            let st2 := if st.isUserLeaving data.To then st
              else st.SendText (joinMsg data.To) ""
            .ok (st2.clearUserLeaving data.To) .proceed
        | .nilReturn => .panicked nilDeref
        | .panicked m => .panicked m
    else .ok st .proceed
  | .cmd c => if c = "kill" then .ok st .terminated else .ok st .proceed

/-- `MessageLogHandler`: store a log record for every send-event and
send-reply, fire-and-forget. -/
def MessageLogHandlerStep (env : Env) (st : RoomState) : HandlerInput → StepOutcome
  | .pkt packet =>
    if packet.Type' = SendEventType ∨ packet.Type' = SendReplyType then
      match GetMessagePayload packet with
      | .ok data =>
        let (msgID, ev) := prepareMsgLogEvent data
        .ok (storeMsgLogEvent env st msgID ev) .proceed
      | .nilReturn => .panicked nilDeref
      | .panicked m => .panicked m
    else .ok st .proceed
  | .cmd c => if c = "kill" then .ok st .terminated else .ok st .proceed

/-- Every handler loop body of handlers.go. -/
def allHandlerSteps : List (Env → RoomState → HandlerInput → StepOutcome) :=
  [PingEventHandlerStep, PingCommandHandlerStep, SeenRecordHandlerStep,
   SeenCommandHandlerStep, LinkTitleHandlerStep, UptimeCommandHandlerStep,
   ScritchCommandHandlerStep, DebugHandlerStep, NickChangeHandlerStep,
   PartEventHandlerStep, JoinEventHandlerStep, MessageLogHandlerStep]

/-- Each handler paired with the packet type tags it reacts to (its
filter-then-act guard). -/
def handlerFilters : List ((Env → RoomState → HandlerInput → StepOutcome) × List String) :=
  [(PingEventHandlerStep, [PingEventType]),
   (PingCommandHandlerStep, [SendEventType]),
   (SeenRecordHandlerStep, [SendEventType]),
   (SeenCommandHandlerStep, [SendEventType]),
   (LinkTitleHandlerStep, [SendEventType]),
   (UptimeCommandHandlerStep, [SendEventType]),
   (ScritchCommandHandlerStep, [SendEventType]),
   (DebugHandlerStep, [BounceEventType]),
   (NickChangeHandlerStep, [NickEventType]),
   (PartEventHandlerStep, [PartEventType]),
   (JoinEventHandlerStep, [JoinEventType, NickEventType]),
   (MessageLogHandlerStep, [SendEventType, SendReplyType])]

/-- A handler iteration left the shared Room state alone in every way the
spec's frame condition names: no sends, no pings, no leaving-set change, no
reported error, no store writes. -/
def noEffect (st st2 : RoomState) : Prop :=
  st2.sent = st.sent ∧ st2.pings = st.pings ∧ st2.leaving = st.leaving ∧
  st2.errors = st.errors ∧ st2.msgLog = st.msgLog ∧ st2.seen = st.seen

-- ## The presence-debounce state machine as interleaved actions

/-- One interleaved step of the presence subsystem: the part/join handler
processing a part-event, a join-event, or a nick-event with empty `from`
(a nick-in) for a user, or a previously spawned `partTimer` waking up after
its five-minute sleep. -/
inductive PresenceAct where
  | part (u : String)
  | join (u : String)
  | nickIn (u : String)
  | timer (u : String)
deriving Repr, DecidableEq

/-- `PartEventHandler`'s reaction to a part-event for `u` (the timer spawn is
the separate `PresenceAct.timer`). -/
def processPart (st : RoomState) (u : String) : RoomState := st.setUserLeaving u

/-- `JoinEventHandler`'s reaction to a join-event for `u`. -/
def processJoin (st : RoomState) (u : String) : RoomState :=
  if u = "" then st
  else (if st.isUserLeaving u then st else st.SendText (joinMsg u) "").clearUserLeaving u

/-- `JoinEventHandler`'s reaction to a nick-event with empty `from` and
`to = u`; note the source has no empty-name guard here. -/
def processNickIn (st : RoomState) (u : String) : RoomState :=
  (if st.isUserLeaving u then st else st.SendText (joinMsg u) "").clearUserLeaving u

def runAct (st : RoomState) : PresenceAct → RoomState
  | .part u => processPart st u
  | .join u => processJoin st u
  | .nickIn u => processNickIn st u
  | .timer u => partTimer st u

def runActs (st : RoomState) (acts : List PresenceAct) : RoomState :=
  acts.foldl runAct st

/-- Canonical part-event packet for a user. -/
def partPacket (u : String) : PacketEvent :=
  { Type' := PartEventType, Data := Json.obj [("name", Json.str u)] }

/-- Canonical join-event packet for a user. -/
def joinPacket (u : String) : PacketEvent :=
  { Type' := JoinEventType, Data := Json.obj [("name", Json.str u)] }

/-- Canonical nick-event packet with empty `from` for a user. -/
def nickInPacket (u : String) : PacketEvent :=
  { Type' := NickEventType, Data := Json.obj [("to", Json.str u)] }
/-- A fresh Room: empty leaving-set, nothing sent (spec §3: a fresh Room per
session). -/
def initRoom : RoomState := {}


/-- The action semantics of a part agrees with `PartEventHandlerStep` on the
canonical packet. -/
lemma partStep_bridge (env : Env) (st : RoomState) (u : String) :
    PartEventHandlerStep env st (.pkt (partPacket u)) = .ok (processPart st u) .proceed := rfl

/-- The action semantics of a join agrees with `JoinEventHandlerStep` on the
canonical packet. -/
lemma joinStep_bridge (env : Env) (st : RoomState) (u : String) :
    JoinEventHandlerStep env st (.pkt (joinPacket u)) = .ok (processJoin st u) .proceed := by
  have h1 : JoinEventHandlerStep env st (.pkt (joinPacket u))
      = (if u = "" then .ok st .proceed
         else .ok ((if st.isUserLeaving u then st
                    else st.SendText (joinMsg u) "").clearUserLeaving u) .proceed) := rfl
  rw [h1]; unfold processJoin
  by_cases hu : u = "" <;> simp [hu]

/-- The action semantics of a nick-in agrees with `JoinEventHandlerStep` on
the canonical packet. -/
lemma nickInStep_bridge (env : Env) (st : RoomState) (u : String) :
    JoinEventHandlerStep env st (.pkt (nickInPacket u)) = .ok (processNickIn st u) .proceed := rfl

-- Frame facts about the Room operations.

lemma sent_setUserLeaving (st : RoomState) (u : String) :
    (st.setUserLeaving u).sent = st.sent := rfl

lemma sent_clearUserLeaving (st : RoomState) (u : String) :
    (st.clearUserLeaving u).sent = st.sent := rfl

lemma sent_SendText (st : RoomState) (t p : String) :
    (st.SendText t p).sent = st.sent ++ [(t, p)] := rfl

lemma leaving_SendText (st : RoomState) (t p : String) :
    (st.SendText t p).leaving = st.leaving := rfl

lemma mem_leaving_setUser (st : RoomState) (u v : String) :
    v ∈ (st.setUserLeaving u).leaving ↔ v ∈ st.leaving ∨ v = u := by
  show v ∈ (if u ∈ st.leaving then st.leaving else u :: st.leaving) ↔ v ∈ st.leaving ∨ v = u
  by_cases h : u ∈ st.leaving
  · rw [if_pos h]
    constructor
    · exact Or.inl
    · rintro (hv | rfl)
      · exact hv
      · exact h
  · rw [if_neg h, List.mem_cons]
    tauto

lemma mem_leaving_clearUser (st : RoomState) (u v : String) :
    v ∈ (st.clearUserLeaving u).leaving ↔ v ∈ st.leaving ∧ v ≠ u := by
  simp [RoomState.clearUserLeaving, List.mem_filter]

lemma isUserLeaving_iff (st : RoomState) (u : String) :
    st.isUserLeaving u = true ↔ u ∈ st.leaving := by
  simp [RoomState.isUserLeaving]

/-- The join announcement is never a leave announcement: the two format
strings differ (e.g. at the 13th character from the end). -/
lemma joinMsg_ne_leaveMsg (v u : String) : joinMsg v ≠ leaveMsg u := by
  intro h
  have hd : (("< " ++ v).data ++ " joined the room. >".data)
      = (("< " ++ u).data ++ " left the room. >".data) := by
    have := congrArg String.data h
    simpa [joinMsg, leaveMsg, String.data_append] using this
  have h2 := congrArg (fun l => l.reverse[12]?) hd
  simp only [List.reverse_append] at h2
  rw [List.getElem?_append_left (by decide), List.getElem?_append_left (by decide)] at h2
  exact absurd h2 (by decide)

/-- Distinct users have distinct leave announcements. -/
lemma leaveMsg_inj {u w : String} (h : leaveMsg u = leaveMsg w) : u = w := by
  have hd : ("< ".data ++ (u.data ++ " left the room. >".data))
      = ("< ".data ++ (w.data ++ " left the room. >".data)) := by
    have := congrArg String.data h
    simpa [leaveMsg, String.data_append] using this
  have h1 := List.append_cancel_left hd
  have h2 := List.append_cancel_right h1
  cases u; cases w; exact congrArg String.mk (by simpa using h2)

lemma count_append_one (l : List (String × String)) (x k : String × String) :
    (l ++ [x]).count k = l.count k + (if k = x then 1 else 0) := by
  rw [List.count_append]
  rcases eq_or_ne k x with h | h <;> simp [h, List.count_eq_zero]


lemma runActs_nil (st : RoomState) : runActs st [] = st := rfl

lemma runActs_cons (st : RoomState) (a : PresenceAct) (rest : List PresenceAct) :
    runActs st (a :: rest) = runActs (runAct st a) rest := rfl

lemma runActs_append (st : RoomState) (l1 l2 : List PresenceAct) :
    runActs st (l1 ++ l2) = runActs (runActs st l1) l2 :=
  List.foldl_append runAct st l1 l2

/-- An action other than `u`'s own timer never emits `u`'s leave
announcement. -/
lemma count_runAct_of_ne_timer (u : String) (st : RoomState) (a : PresenceAct)
    (h : a ≠ .timer u) :
    ((runAct st a).sent.count (leaveMsg u, "")) = st.sent.count (leaveMsg u, "") := by
  have hjoin : ∀ v, (leaveMsg u, "") ≠ ((joinMsg v : String), ("" : String)) := by
    intro v he
    exact (joinMsg_ne_leaveMsg v u) (congrArg Prod.fst he).symm
  cases a with
  | part v => rfl
  | join v =>
    show ((processJoin st v).sent.count (leaveMsg u, "")) = st.sent.count (leaveMsg u, "")
    unfold processJoin
    by_cases hv : v = ""
    · rw [if_pos hv]
    · rw [if_neg hv]
      by_cases hl : st.isUserLeaving v
      · rw [if_pos hl]; rfl
      · rw [if_neg hl]
        show ((st.SendText (joinMsg v) "").sent.count _) = _
        rw [sent_SendText, count_append_one, if_neg (hjoin v), Nat.add_zero]
  | nickIn v =>
    show ((processNickIn st v).sent.count (leaveMsg u, "")) = st.sent.count (leaveMsg u, "")
    unfold processNickIn
    by_cases hl : st.isUserLeaving v
    · rw [if_pos hl]; rfl
    · rw [if_neg hl]
      show ((st.SendText (joinMsg v) "").sent.count _) = _
      rw [sent_SendText, count_append_one, if_neg (hjoin v), Nat.add_zero]
  | timer v =>
    have hvu : v ≠ u := fun he => h (by rw [he])
    show ((partTimer st v).sent.count (leaveMsg u, "")) = st.sent.count (leaveMsg u, "")
    unfold partTimer
    by_cases hc : st.isUserLeaving v = true ∧ v ≠ ""
    · rw [if_pos hc]
      show ((st.SendText (leaveMsg v) "").sent.count _) = _
      rw [sent_SendText, count_append_one, if_neg]
      · rw [Nat.add_zero]
      · intro he
        exact hvu (leaveMsg_inj (congrArg Prod.fst he)).symm
    · rw [if_neg hc]

/-- As long as `u`'s timer never fires, no `u` leave announcement appears. -/
lemma count_runActs_of_no_timer (u : String) (acts : List PresenceAct) :
    ∀ st : RoomState, PresenceAct.timer u ∉ acts →
    ((runActs st acts).sent.count (leaveMsg u, "")) = st.sent.count (leaveMsg u, "") := by
  induction acts with
  | nil => intro st _; rfl
  | cons a rest ih =>
    intro st h
    rw [List.mem_cons, not_or] at h
    rw [runActs_cons, ih (runAct st a) h.2,
        count_runAct_of_ne_timer u st a (fun he => h.1 he.symm)]

/-- Membership in the leaving-set can only be introduced by that user's own
part action. -/
lemma leaving_runAct_subset (st : RoomState) (a : PresenceAct) (u : String)
    (h : u ∈ (runAct st a).leaving) : u ∈ st.leaving ∨ a = .part u := by
  cases a with
  | part v =>
    replace h : u ∈ (st.setUserLeaving v).leaving := h
    rw [mem_leaving_setUser] at h
    rcases h with h | rfl
    · exact Or.inl h
    · exact Or.inr rfl
  | join v =>
    left
    replace h : u ∈ (processJoin st v).leaving := h
    unfold processJoin at h
    split at h
    · exact h
    · rw [mem_leaving_clearUser] at h
      rcases h with ⟨h, _⟩
      split at h
      · exact h
      · exact h
  | nickIn v =>
    left
    replace h : u ∈ (processNickIn st v).leaving := h
    unfold processNickIn at h
    rw [mem_leaving_clearUser] at h
    rcases h with ⟨h, _⟩
    split at h
    · exact h
    · exact h
  | timer v =>
    left
    replace h : u ∈ (partTimer st v).leaving := h
    unfold partTimer at h
    split at h
    · rw [mem_leaving_clearUser] at h
      exact h.1
    · exact h

/-- Membership in the leaving-set survives every action except that user's
own join, nick-in or timer. -/
lemma leaving_runAct_of_mem (st : RoomState) (a : PresenceAct) (u : String)
    (h : u ∈ st.leaving) (hj : a ≠ .join u) (hn : a ≠ .nickIn u) (ht : a ≠ .timer u) :
    u ∈ (runAct st a).leaving := by
  cases a with
  | part v =>
    show u ∈ (st.setUserLeaving v).leaving
    rw [mem_leaving_setUser]
    exact Or.inl h
  | join v =>
    have hvu : u ≠ v := fun he => hj (by rw [he])
    show u ∈ (processJoin st v).leaving
    unfold processJoin
    split
    · exact h
    · rw [mem_leaving_clearUser]
      refine ⟨?_, hvu⟩
      split
      · exact h
      · exact h
  | nickIn v =>
    have hvu : u ≠ v := fun he => hn (by rw [he])
    show u ∈ (processNickIn st v).leaving
    unfold processNickIn
    rw [mem_leaving_clearUser]
    refine ⟨?_, hvu⟩
    split
    · exact h
    · exact h
  | timer v =>
    have hvu : u ≠ v := fun he => ht (by rw [he])
    show u ∈ (partTimer st v).leaving
    unfold partTimer
    split
    · rw [mem_leaving_clearUser]
      exact ⟨h, hvu⟩
    · exact h

lemma mem_leaving_runActs (u : String) (acts : List PresenceAct) :
    ∀ st, u ∈ st.leaving → PresenceAct.join u ∉ acts → PresenceAct.nickIn u ∉ acts →
      PresenceAct.timer u ∉ acts → u ∈ (runActs st acts).leaving := by
  induction acts with
  | nil => intro st h _ _ _; exact h
  | cons a rest ih =>
    intro st h hj hn ht
    rw [List.mem_cons, not_or] at hj hn ht
    rw [runActs_cons]
    exact ih (runAct st a) (leaving_runAct_of_mem st a u h (fun he => hj.1 he.symm)
      (fun he => hn.1 he.symm) (fun he => ht.1 he.symm)) hj.2 hn.2 ht.2

/-- Once `u` is out of the leaving-set (or is the empty name, which the timer
ignores), a sequence without a `u` part keeps the leave-announcement count
unchanged and keeps `u` out. -/
lemma stays_out_of_leaving (u : String) (acts : List PresenceAct) :
    ∀ st : RoomState, PresenceAct.part u ∉ acts → (u = "" ∨ u ∉ st.leaving) →
      ((runActs st acts).sent.count (leaveMsg u, "")) = st.sent.count (leaveMsg u, "")
      ∧ (u = "" ∨ u ∉ (runActs st acts).leaving) := by
  induction acts with
  | nil => intro st _ h0; exact ⟨rfl, h0⟩
  | cons a rest ih =>
    intro st h h0
    rw [List.mem_cons, not_or] at h
    have hcount : ((runAct st a).sent.count (leaveMsg u, "")) = st.sent.count (leaveMsg u, "") := by
      rcases eq_or_ne a (.timer u) with rfl | hne
      · have hnoop : partTimer st u = st := by
          unfold partTimer
          rw [if_neg]
          rintro ⟨hl, hne'⟩
          rcases h0 with h0 | h0
          · exact hne' h0
          · exact h0 ((isUserLeaving_iff st u).mp hl)
        show (partTimer st u).sent.count _ = _
        rw [hnoop]
      · exact count_runAct_of_ne_timer u st a hne
    have hmem : u = "" ∨ u ∉ (runAct st a).leaving := by
      rcases h0 with h0 | h0
      · exact Or.inl h0
      · right
        intro hm
        rcases leaving_runAct_subset st a u hm with hm | hm
        · exact h0 hm
        · exact h.1 hm.symm
    obtain ⟨h1, h2⟩ := ih (runAct st a) h.2 hmem
    exact ⟨h1.trans hcount, h2⟩

lemma runActs_singleton (st : RoomState) (a : PresenceAct) :
    runActs st [a] = runAct st a := rfl

lemma not_mem_processJoin (st : RoomState) (u : String) (hu : u ≠ "") :
    u ∉ (processJoin st u).leaving := by
  unfold processJoin
  rw [if_neg hu]
  intro hm
  rw [mem_leaving_clearUser] at hm
  exact hm.2 rfl

lemma not_mem_processNickIn (st : RoomState) (u : String) :
    u ∉ (processNickIn st u).leaving := by
  unfold processNickIn
  intro hm
  rw [mem_leaving_clearUser] at hm
  exact hm.2 rfl

lemma timer_not_mem_pre_mid (u : String) (pre mid : List PresenceAct)
    (hpre : PresenceAct.timer u ∉ pre) (hmid : PresenceAct.timer u ∉ mid) :
    PresenceAct.timer u ∉ (pre ++ [PresenceAct.part u]) ++ mid := by
  simp only [List.mem_append, List.mem_singleton]
  rintro ((h | h) | h)
  · exact hpre h
  · cases h
  · exact hmid h

/-- C1: a part-event for U followed, before U's deferred confirmation timer
fires, by a join-event (or a nick-event with empty `from`) for U — and no
later part-event for U — never produces a "U left the room" announcement:
the join clears U from the leaving-set, and the timer re-reads the leaving
state at fire time (rather than a snapshot from schedule time) and does
nothing. -/
theorem part_then_join_suppresses_leave
    (pre mid post : List PresenceAct) (u : String) (a : PresenceAct)
    (ha : a = .join u ∨ a = .nickIn u)
    (hpre : PresenceAct.timer u ∉ pre) (hmid : PresenceAct.timer u ∉ mid)
    (hpost : PresenceAct.part u ∉ post) :
    (leaveMsg u, "") ∉
      (runActs initRoom (pre ++ [PresenceAct.part u] ++ mid ++ [a] ++ post)).sent := by
  rw [← List.count_eq_zero]
  rw [runActs_append, runActs_append, runActs_singleton]
  have hc1 : ((runActs initRoom ((pre ++ [PresenceAct.part u]) ++ mid)).sent.count
      (leaveMsg u, "")) = 0 := by
    rw [count_runActs_of_no_timer u _ initRoom (timer_not_mem_pre_mid u pre mid hpre hmid)]
    rfl
  have hstep : a ≠ PresenceAct.timer u := by rcases ha with rfl | rfl <;> simp
  have hc2 : ((runAct (runActs initRoom ((pre ++ [PresenceAct.part u]) ++ mid)) a).sent.count
      (leaveMsg u, "")) = 0 :=
    (count_runAct_of_ne_timer u _ a hstep).trans hc1
  have hmem : u = "" ∨ u ∉ (runAct (runActs initRoom ((pre ++ [PresenceAct.part u]) ++ mid))
      a).leaving := by
    rcases ha with rfl | rfl
    · by_cases hu : u = ""
      · exact Or.inl hu
      · exact Or.inr (not_mem_processJoin _ u hu)
    · exact Or.inr (not_mem_processNickIn _ u)
  obtain ⟨hfin, _⟩ := stays_out_of_leaving u post _ hpost hmem
  exact hfin.trans hc2

/-- C1 witness: a concrete part/join/late-timer interleaving for "alice". -/
theorem part_then_join_suppresses_leave_witness :
    (leaveMsg "alice", "") ∉
      (runActs initRoom ([] ++ [PresenceAct.part "alice"] ++ [] ++ [PresenceAct.join "alice"]
        ++ [PresenceAct.timer "alice"])).sent :=
  part_then_join_suppresses_leave [] [] [PresenceAct.timer "alice"] "alice"
    (PresenceAct.join "alice") (Or.inl rfl) (by simp) (by simp) (by simp)

/-- C5: a part-event for a user U with a non-empty name, with no subsequent
join-event, nick-in, or earlier timer for U, produces exactly one
"U left the room" announcement — none before the timer action (which models
the elapse of the fixed 5-minute delay), exactly one in total once the timer
re-reads U's leaving state and fires, with the timer also clearing U from
the leaving-set. -/
theorem part_without_rejoin_single_leave
    (pre mid post : List PresenceAct) (u : String) (hu : u ≠ "")
    (hpre : PresenceAct.timer u ∉ pre)
    (hm1 : PresenceAct.join u ∉ mid) (hm2 : PresenceAct.nickIn u ∉ mid)
    (hm3 : PresenceAct.timer u ∉ mid)
    (hpost : PresenceAct.part u ∉ post) :
    ((runActs initRoom ((pre ++ [PresenceAct.part u]) ++ mid)).sent.count
        (leaveMsg u, "")) = 0
    ∧ ((runActs initRoom ((((pre ++ [PresenceAct.part u]) ++ mid)
        ++ [PresenceAct.timer u]) ++ post)).sent.count (leaveMsg u, "")) = 1
    ∧ u ∉ (runActs initRoom ((((pre ++ [PresenceAct.part u]) ++ mid)
        ++ [PresenceAct.timer u]) ++ post)).leaving
    ∧ partTimerDelayMinutes = 5 := by
  have hc1 : ((runActs initRoom ((pre ++ [PresenceAct.part u]) ++ mid)).sent.count
      (leaveMsg u, "")) = 0 := by
    rw [count_runActs_of_no_timer u _ initRoom (timer_not_mem_pre_mid u pre mid hpre hm3)]
    rfl
  have hmem1 : u ∈ (runActs initRoom ((pre ++ [PresenceAct.part u]) ++ mid)).leaving := by
    rw [runActs_append, runActs_append, runActs_singleton]
    refine mem_leaving_runActs u mid _ ?_ hm1 hm2 hm3
    show u ∈ ((runActs initRoom pre).setUserLeaving u).leaving
    rw [mem_leaving_setUser]
    exact Or.inr rfl
  have htimer : partTimer (runActs initRoom ((pre ++ [PresenceAct.part u]) ++ mid)) u
      = ((runActs initRoom ((pre ++ [PresenceAct.part u]) ++ mid)).SendText
          (leaveMsg u) "").clearUserLeaving u := by
    unfold partTimer
    rw [if_pos ⟨(isUserLeaving_iff _ u).mpr hmem1, hu⟩]
  have hc2 : ((partTimer (runActs initRoom ((pre ++ [PresenceAct.part u]) ++ mid)) u).sent.count
      (leaveMsg u, "")) = 1 := by
    rw [htimer]
    show (((runActs initRoom ((pre ++ [PresenceAct.part u]) ++ mid)).SendText
        (leaveMsg u) "").sent.count (leaveMsg u, "")) = 1
    rw [sent_SendText, count_append_one, if_pos rfl, hc1]
  have hmem2 : u = "" ∨ u ∉ (partTimer (runActs initRoom
      ((pre ++ [PresenceAct.part u]) ++ mid)) u).leaving := by
    right
    rw [htimer]
    intro hm
    rw [mem_leaving_clearUser] at hm
    exact hm.2 rfl
  obtain ⟨hfin, hout⟩ := stays_out_of_leaving u post _ hpost hmem2
  refine ⟨hc1, ?_, ?_, rfl⟩
  · rw [runActs_append, runActs_append, runActs_singleton]
    exact hfin.trans hc2
  · rw [runActs_append, runActs_append, runActs_singleton]
    exact hout.resolve_left hu

/-- C5 witness: the minimal part-then-timer run for "alice". -/
theorem part_without_rejoin_single_leave_witness :
    ((runActs initRoom (([] ++ [PresenceAct.part "alice"]) ++ [])).sent.count
        (leaveMsg "alice", "")) = 0
    ∧ ((runActs initRoom (((([] ++ [PresenceAct.part "alice"]) ++ [])
        ++ [PresenceAct.timer "alice"]) ++ [])).sent.count (leaveMsg "alice", "")) = 1
    ∧ "alice" ∉ (runActs initRoom (((([] ++ [PresenceAct.part "alice"]) ++ [])
        ++ [PresenceAct.timer "alice"]) ++ [])).leaving
    ∧ partTimerDelayMinutes = 5 :=
  part_without_rejoin_single_leave [] [] [] "alice" (by decide)
    (by simp) (by simp) (by simp) (by simp) (by simp)

-- Payload dispatch lemmas per registered type tag.

lemma payload_presence (p : PacketEvent)
    (h : p.Type' = JoinEventType ∨ p.Type' = PartEventType) :
    p.Payload = (.presenceEvent (decodePresenceEvent p.Data).1,
      (decodePresenceEvent p.Data).2) := by
  rcases h with h | h <;> (unfold PacketEvent.Payload; rw [h]; rfl)

lemma payload_nick (p : PacketEvent) (h : p.Type' = NickEventType) :
    p.Payload = (.nickEvent (decodeNickEvent p.Data).1, (decodeNickEvent p.Data).2) := by
  unfold PacketEvent.Payload; rw [h]; rfl

lemma payload_message (p : PacketEvent)
    (h : p.Type' = SendEventType ∨ p.Type' = SendReplyType) :
    p.Payload = (.message (decodeMessage p.Data).1, (decodeMessage p.Data).2) := by
  rcases h with h | h <;> (unfold PacketEvent.Payload; rw [h]; rfl)

lemma payload_ping (p : PacketEvent) (h : p.Type' = PingEventType) :
    p.Payload = (.pingEvent (decodePingEvent p.Data).1, (decodePingEvent p.Data).2) := by
  unfold PacketEvent.Payload; rw [h]; rfl

lemma getPresence_eq (p : PacketEvent)
    (h : p.Type' = JoinEventType ∨ p.Type' = PartEventType) :
    GetPresenceEventPayload p = .ok (decodePresenceEvent p.Data).1 := by
  unfold GetPresenceEventPayload
  rw [payload_presence p h]

lemma getNick_eq (p : PacketEvent) (h : p.Type' = NickEventType) :
    GetNickEventPayload p = .ok (decodeNickEvent p.Data).1 := by
  unfold GetNickEventPayload
  rw [payload_nick p h]

lemma getMessage_eq (p : PacketEvent)
    (h : p.Type' = SendEventType ∨ p.Type' = SendReplyType) :
    GetMessagePayload p = .ok (decodeMessage p.Data).1 := by
  unfold GetMessagePayload
  rw [payload_message p h]

/-- C2: decoding an envelope tagged "ping-event" with a well-formed body
yields a ping-event payload whose time and next match the body, with no
error; decoding an envelope whose tag is outside the registered set always
yields the unknown-type error with the raw data, never a decoded variant. -/
theorem payload_ping_and_unknown_type :
    (∀ (id err : String) (t n : Int),
      (PacketEvent.mk id PingEventType
          (Json.obj [("time", Json.num t), ("next", Json.num n)]) err).Payload
        = (PayloadVal.pingEvent { Time := t, Next := n }, none))
  ∧ (∀ p : PacketEvent, p.Type' ∉ registeredTypes →
      p.Payload = (PayloadVal.raw p.Data, some "Unexpected packet type.")) := by
  constructor
  · intro id err t n
    rfl
  · intro p hp
    simp only [registeredTypes, List.mem_cons, List.not_mem_nil, or_false, not_or] at hp
    obtain ⟨h1, h2, h3, h4, h5, h6, h7, h8, h9, h10⟩ := hp
    unfold PacketEvent.Payload
    rw [if_neg h1, if_neg (not_or.mpr ⟨h2, h3⟩), if_neg h4, if_neg h5,
        if_neg (not_or.mpr ⟨h6, h7⟩), if_neg h8, if_neg h9, if_neg h10]

/-- C2 witness: a concrete ping-event envelope and a concrete unregistered
tag. -/
theorem payload_ping_and_unknown_type_witness :
    (PacketEvent.mk "0" PingEventType
        (Json.obj [("time", Json.num 3), ("next", Json.num 7)]) "").Payload
      = (PayloadVal.pingEvent { Time := 3, Next := 7 }, none)
  ∧ (PacketEvent.mk "0" "mystery-event" Json.null "").Payload
      = (PayloadVal.raw Json.null, some "Unexpected packet type.") :=
  ⟨payload_ping_and_unknown_type.1 "0" "" 3 7,
   payload_ping_and_unknown_type.2 (PacketEvent.mk "0" "mystery-event" Json.null "")
     (by decide)⟩

/-- C3, code evaluated at the failing input: on a packet whose payload does
not decode as the requested variant — here a well-formed ping-event —
`GetNickEventPayload` and `GetPresenceEventPayload` panic as the spec
demands, but `GetMessagePayload`'s mismatch branch (`if !ok {}`) is empty
and it silently returns a nil `*Message`, which a caller could process as
valid data. -/
theorem accessor_mismatch_behaviour :
    GetMessagePayload (PacketEvent.mk "" PingEventType
        (Json.obj [("time", Json.num 1), ("next", Json.num 2)]) "")
      = (GetResult.nilReturn : GetResult Message)
  ∧ GetNickEventPayload (PacketEvent.mk "" PingEventType
        (Json.obj [("time", Json.num 1), ("next", Json.num 2)]) "")
      = .panicked "Failed to assert payload as *NickEvent"
  ∧ GetPresenceEventPayload (PacketEvent.mk "" PingEventType
        (Json.obj [("time", Json.num 1), ("next", Json.num 2)]) "")
      = .panicked "Failed to assert payload as *PresenceEvent" :=
  ⟨rfl, rfl, rfl⟩

/-- C4 counterexample: the claim (with the spec) says "!pingx" does not
match the ping command, but the source's bare five-byte prefix check accepts
it. -/
theorem pingx_accepted :
    isValidPingCommand { Content := "!pingx" } = true := rfl

/-- C4 amended: `isValidPingCommand` accepts any content whose first five
bytes are "!ping" — so both "!ping extra text" and "!pingx" — while
`isValidSeenCommand` accepts "!seen @carol" and rejects "!seen carol". -/
theorem command_matcher_examples :
    isValidPingCommand { Content := "!ping extra text" } = true
  ∧ isValidPingCommand { Content := "!pingx" } = true
  ∧ isValidSeenCommand { Content := "!seen @carol" } = .ok true
  ∧ isValidSeenCommand { Content := "!seen carol" } = .ok false :=
  ⟨rfl, rfl, rfl, rfl⟩

/-- C10, code evaluated at the failing inputs: `isValidSeenCommand` is not
total — a content of length 5 or 6 beginning "!seen" reaches the unguarded
`Content[6]` and panics with an index-out-of-range runtime error instead of
returning false; longer contents decide normally. -/
theorem seen_command_out_of_range :
    isValidSeenCommand { Content := "!seen" }
      = .error "runtime error: index out of range"
  ∧ isValidSeenCommand { Content := "!seen " }
      = .error "runtime error: index out of range"
  ∧ isValidSeenCommand { Content := "!seen @carol" } = .ok true :=
  ⟨rfl, rfl, rfl⟩

/-- C6 counterexample: the claim says an empty user identity is ignored
entirely — no announcement, no state change.  But a nick-event whose `from`
and `to` are both empty takes the nick branch of `JoinEventHandler`, which
has no empty-name guard: from a fresh room it announces
"<  joined the room. >". -/
theorem empty_nick_in_announces :
    JoinEventHandlerStep {} initRoom (.pkt (PacketEvent.mk "" NickEventType (Json.obj []) ""))
      = .ok { sent := [(joinMsg "", "")] } .proceed
  ∧ ({ sent := [(joinMsg "", "")] } : RoomState) ≠ initRoom :=
  ⟨rfl, by decide⟩

/-- C6 amended: for join-events, an empty user name is ignored entirely, a
pending-leave user is cleared with no announcement, and a present user is
announced and cleared; for nick-events with empty `from`, the same
pending-leave/present dichotomy applies to the `to` name — but with no
empty-name guard, so an empty `to` is processed like any other name. -/
theorem join_event_handler_cases (env : Env) (st : RoomState) (p : PacketEvent) :
    (p.Type' = JoinEventType →
      ∀ usr, (decodePresenceEvent p.Data).1.User = some usr →
        ((usr.Name = "" → JoinEventHandlerStep env st (.pkt p) = .ok st .proceed)
         ∧ (usr.Name ≠ "" → st.isUserLeaving usr.Name = true →
              JoinEventHandlerStep env st (.pkt p)
                = .ok (st.clearUserLeaving usr.Name) .proceed)
         ∧ (usr.Name ≠ "" → st.isUserLeaving usr.Name = false →
              JoinEventHandlerStep env st (.pkt p)
                = .ok ((st.SendText (joinMsg usr.Name) "").clearUserLeaving usr.Name)
                    .proceed)))
  ∧ (p.Type' = NickEventType → (decodeNickEvent p.Data).1.From = "" →
      ((st.isUserLeaving (decodeNickEvent p.Data).1.To = true →
          JoinEventHandlerStep env st (.pkt p)
            = .ok (st.clearUserLeaving (decodeNickEvent p.Data).1.To) .proceed)
       ∧ (st.isUserLeaving (decodeNickEvent p.Data).1.To = false →
          JoinEventHandlerStep env st (.pkt p)
            = .ok ((st.SendText (joinMsg (decodeNickEvent p.Data).1.To) "").clearUserLeaving
                (decodeNickEvent p.Data).1.To) .proceed))) := by
  constructor
  · intro hT usr husr
    have houter : p.Type' = JoinEventType ∨ p.Type' = NickEventType := Or.inl hT
    refine ⟨?_, ?_, ?_⟩
    · intro hname
      simp only [JoinEventHandlerStep, if_pos houter, if_pos hT,
        getPresence_eq p (Or.inl hT), husr, hname, if_pos]
    · intro hname hleav
      simp only [JoinEventHandlerStep, if_pos houter, if_pos hT,
        getPresence_eq p (Or.inl hT), husr, hname, hleav, if_neg, if_pos, ite_true, ite_false]
    · intro hname hleav
      simp only [JoinEventHandlerStep, if_pos houter, if_pos hT,
        getPresence_eq p (Or.inl hT), husr, hname, hleav, ite_true, ite_false]
      simp
  · intro hT hfrom
    have houter : p.Type' = JoinEventType ∨ p.Type' = NickEventType := Or.inr hT
    have hne : ¬(p.Type' = JoinEventType) := by
      rw [hT]; intro h; exact absurd h (by decide)
    refine ⟨?_, ?_⟩
    · intro hleav
      simp only [JoinEventHandlerStep, if_pos houter, if_neg hne,
        getNick_eq p hT, hfrom, hleav, ite_true, ite_false]
      simp
    · intro hleav
      simp only [JoinEventHandlerStep, if_pos houter, if_neg hne,
        getNick_eq p hT, hfrom, hleav, ite_true, ite_false]
      simp

/-- C6 witness: a join-event for "bob" in a fresh room announces and
clears. -/
theorem join_event_handler_cases_witness :
    JoinEventHandlerStep {} initRoom (.pkt (joinPacket "bob"))
      = .ok ((initRoom.SendText (joinMsg "bob") "").clearUserLeaving "bob") .proceed :=
  ((join_event_handler_cases {} initRoom (joinPacket "bob")).1 rfl
    { Name := "bob" } rfl).2.2 (by decide) rfl

/-- C7: every handler's loop iteration is a two-way wait that also handles
the command channel: the command "kill" makes the loop return, leaving the
room untouched, and any other command just loops — so shutdown cannot be
missed while waiting for a packet. -/
theorem handlers_terminate_on_kill :
    ∀ step ∈ allHandlerSteps, ∀ (env : Env) (st : RoomState),
      step env st (.cmd "kill") = .ok st .terminated
      ∧ ∀ c : String, c ≠ "kill" → step env st (.cmd c) = .ok st .proceed := by
  intro step hstep env st
  simp only [allHandlerSteps, List.mem_cons, List.not_mem_nil, or_false] at hstep
  rcases hstep with rfl | rfl | rfl | rfl | rfl | rfl | rfl | rfl | rfl | rfl | rfl | rfl <;>
  · refine ⟨rfl, fun c hc => ?_⟩
    show (if c = "kill" then StepOutcome.ok st .terminated else .ok st .proceed)
      = .ok st .proceed
    rw [if_neg hc]

/-- C7 witness: `PingEventHandler` terminates on "kill" and loops on another
command. -/
theorem handlers_terminate_on_kill_witness :
    PingEventHandlerStep {} initRoom (.cmd "kill") = .ok initRoom .terminated
    ∧ PingEventHandlerStep {} initRoom (.cmd "stay") = .ok initRoom .proceed :=
  ⟨(handlers_terminate_on_kill PingEventHandlerStep (by simp [allHandlerSteps]) {} initRoom).1,
   (handlers_terminate_on_kill PingEventHandlerStep (by simp [allHandlerSteps]) {}
      initRoom).2 "stay" (by decide)⟩

-- Filter-then-act: each handler skips packets whose type it does not react to.

lemma pingEvent_skip (env : Env) (st : RoomState) (p : PacketEvent)
    (h : p.Type' ≠ PingEventType) : PingEventHandlerStep env st (.pkt p) = .ok st .proceed := by
  simp only [PingEventHandlerStep]; rw [if_neg h]

lemma pingCommand_skip (env : Env) (st : RoomState) (p : PacketEvent)
    (h : p.Type' ≠ SendEventType) : PingCommandHandlerStep env st (.pkt p) = .ok st .proceed := by
  simp only [PingCommandHandlerStep]; rw [if_neg h]

lemma seenRecord_skip (env : Env) (st : RoomState) (p : PacketEvent)
    (h : p.Type' ≠ SendEventType) : SeenRecordHandlerStep env st (.pkt p) = .ok st .proceed := by
  simp only [SeenRecordHandlerStep]; rw [if_neg h]

lemma seenCommand_skip (env : Env) (st : RoomState) (p : PacketEvent)
    (h : p.Type' ≠ SendEventType) : SeenCommandHandlerStep env st (.pkt p) = .ok st .proceed := by
  simp only [SeenCommandHandlerStep]; rw [if_neg h]

lemma linkTitle_skip (env : Env) (st : RoomState) (p : PacketEvent)
    (h : p.Type' ≠ SendEventType) : LinkTitleHandlerStep env st (.pkt p) = .ok st .proceed := by
  simp only [LinkTitleHandlerStep]; rw [if_neg h]

lemma uptimeCommand_skip (env : Env) (st : RoomState) (p : PacketEvent)
    (h : p.Type' ≠ SendEventType) : UptimeCommandHandlerStep env st (.pkt p) = .ok st .proceed := by
  simp only [UptimeCommandHandlerStep]; rw [if_neg h]

lemma scritchCommand_skip (env : Env) (st : RoomState) (p : PacketEvent)
    (h : p.Type' ≠ SendEventType) : ScritchCommandHandlerStep env st (.pkt p) = .ok st .proceed := by
  simp only [ScritchCommandHandlerStep]; rw [if_neg h]

lemma debug_skip (env : Env) (st : RoomState) (p : PacketEvent)
    (h : p.Type' ≠ BounceEventType) :
    DebugHandlerStep env st (.pkt p)
      = .ok (if p.Error ≠ "" then
          { st with logs := st.logs ++ ["Packet received containing error: " ++ p.Error] }
        else st) .proceed := by
  simp only [DebugHandlerStep]; rw [if_neg h]

lemma nickChange_skip (env : Env) (st : RoomState) (p : PacketEvent)
    (h : p.Type' ≠ NickEventType) : NickChangeHandlerStep env st (.pkt p) = .ok st .proceed := by
  simp only [NickChangeHandlerStep]; rw [if_neg h]

lemma partEvent_skip (env : Env) (st : RoomState) (p : PacketEvent)
    (h : p.Type' ≠ PartEventType) : PartEventHandlerStep env st (.pkt p) = .ok st .proceed := by
  simp only [PartEventHandlerStep]; rw [if_neg h]

lemma joinEvent_skip (env : Env) (st : RoomState) (p : PacketEvent)
    (h1 : p.Type' ≠ JoinEventType) (h2 : p.Type' ≠ NickEventType) :
    JoinEventHandlerStep env st (.pkt p) = .ok st .proceed := by
  simp only [JoinEventHandlerStep]; rw [if_neg (not_or.mpr ⟨h1, h2⟩)]

lemma messageLog_skip (env : Env) (st : RoomState) (p : PacketEvent)
    (h1 : p.Type' ≠ SendEventType) (h2 : p.Type' ≠ SendReplyType) :
    MessageLogHandlerStep env st (.pkt p) = .ok st .proceed := by
  simp only [MessageLogHandlerStep]; rw [if_neg (not_or.mpr ⟨h1, h2⟩)]

/-- C8: for every handler and every packet whose type tag is not one the
handler reacts to, the iteration has no effect in every way the spec's frame
condition names — nothing sent, no ping, no leaving-set change, no error
reported, no store write — and the loop continues.  (`DebugHandler` may
write a diagnostic log line for a packet carrying a server error, which
touches none of those.) -/
theorem unhandled_packet_no_effect :
    ∀ hp ∈ handlerFilters, ∀ (env : Env) (st : RoomState) (p : PacketEvent),
      p.Type' ∉ hp.2 →
      ∃ st2, hp.1 env st (.pkt p) = .ok st2 .proceed ∧ noEffect st st2 := by
  intro hp hmem env st p hnotin
  simp only [handlerFilters, List.mem_cons, List.not_mem_nil, or_false] at hmem
  have hself : noEffect st st := ⟨rfl, rfl, rfl, rfl, rfl, rfl⟩
  rcases hmem with rfl | rfl | rfl | rfl | rfl | rfl | rfl | rfl | rfl | rfl | rfl | rfl <;>
    simp only [List.mem_cons, List.mem_singleton, List.not_mem_nil, or_false, not_or] at hnotin
  · exact ⟨st, pingEvent_skip env st p hnotin, hself⟩
  · exact ⟨st, pingCommand_skip env st p hnotin, hself⟩
  · exact ⟨st, seenRecord_skip env st p hnotin, hself⟩
  · exact ⟨st, seenCommand_skip env st p hnotin, hself⟩
  · exact ⟨st, linkTitle_skip env st p hnotin, hself⟩
  · exact ⟨st, uptimeCommand_skip env st p hnotin, hself⟩
  · exact ⟨st, scritchCommand_skip env st p hnotin, hself⟩
  · refine ⟨_, debug_skip env st p hnotin, ?_⟩
    by_cases hE : p.Error ≠ ""
    · rw [if_pos hE]; exact ⟨rfl, rfl, rfl, rfl, rfl, rfl⟩
    · rw [if_neg hE]; exact hself
  · exact ⟨st, nickChange_skip env st p hnotin, hself⟩
  · exact ⟨st, partEvent_skip env st p hnotin, hself⟩
  · exact ⟨st, joinEvent_skip env st p hnotin.1 hnotin.2, hself⟩
  · exact ⟨st, messageLog_skip env st p hnotin.1 hnotin.2, hself⟩

/-- C8 witness: `PingCommandHandler` ignores a part-event. -/
theorem unhandled_packet_no_effect_witness :
    ∃ st2, PingCommandHandlerStep {} initRoom
        (.pkt (PacketEvent.mk "" PartEventType Json.null "")) = .ok st2 .proceed
      ∧ noEffect initRoom st2 :=
  unhandled_packet_no_effect (PingCommandHandlerStep, [SendEventType])
    (by simp [handlerFilters]) {} initRoom (PacketEvent.mk "" PartEventType Json.null "")
    (by decide)

/-- C9: for every send-event or send-reply packet it logs, the message-log
path surfaces a store error to the Room's error-reporting channel instead of
discarding it — the handler's call is fire-and-forget, and the Room's store
method forwards the failure to the error channel. -/
theorem msglog_store_error_surfaced
    (env : Env) (st : RoomState) (p : PacketEvent) (e : String)
    (hT : p.Type' = SendEventType ∨ p.Type' = SendReplyType)
    (hE : env.msgLogStoreErr = some e) :
    MessageLogHandlerStep env st (.pkt p) = .ok (st.reportError e) .proceed := by
  simp only [MessageLogHandlerStep, if_pos hT, getMessage_eq p hT]
  unfold storeMsgLogEvent
  rw [hE]

/-- C9 witness: a send-event logged while the store is failing lands the
store error on the error channel. -/
theorem msglog_store_error_surfaced_witness :
    MessageLogHandlerStep { msgLogStoreErr := some "store failed" } initRoom
        (.pkt (PacketEvent.mk "" SendEventType Json.null ""))
      = .ok (initRoom.reportError "store failed") .proceed :=
  msglog_store_error_surfaced { msgLogStoreErr := some "store failed" } initRoom
    (PacketEvent.mk "" SendEventType Json.null "") "store failed" (Or.inl rfl) rfl
